import Mathlib

/-!
Verification of the cross-thread asynchronous invocation reactor of the
pfwx repository (src/src/reactor/). Each Rust function relevant to the
frozen claims is shallowly embedded as an executable Lean definition;
the stateful, multi-threaded parts are embedded as explicit step
functions over small state records, driven by lists of scheduler events
that enumerate the possible interleavings.
-/

namespace Pfwx

/-! ## Cancel registry (src/src/reactor/handler.rs, lines 190-238)

A pending entry of `HandlerStateManager::pending` is a pair
`(u64, oneshot::Sender<()>)`.  Of the sender we only need whether its
channel is already closed (`tx.is_closed()`), so a slot is modelled as
an id together with that boolean. -/

structure Slot where
  id : Nat
  closed : Bool
deriving Repr, DecidableEq

/-- Model of Rust `Iterator::position`: index of the first element
satisfying the predicate. -/
def position (p : Slot → Bool) : List Slot → Option Nat
  | [] => none
  | s :: rest => if p s then some 0 else (position p rest).map (fun n => n + 1)

/-- `HandlerStateManager` (handler.rs lines 191-195): monotone id counter
plus the pending cancellation slots. -/
structure HandlerStateManager where
  next_id : Nat
  pending : List Slot
deriving Repr, DecidableEq

/-- `HandlerStateManager::new_cancel_id` (handler.rs lines 198-210):
takes the current `next_id`, increments the counter, and stores the new
slot (its fresh channel is open) over the first closed slot if one
exists, appending otherwise. -/
def HandlerStateManager.new_cancel_id (m : HandlerStateManager) : Nat × HandlerStateManager :=
  let fresh : Slot := ⟨m.next_id, false⟩
  match position (fun s => s.closed) m.pending with
  | some idx => (m.next_id, ⟨m.next_id + 1, m.pending.set idx fresh⟩)
  | none => (m.next_id, ⟨m.next_id + 1, m.pending ++ [fresh]⟩)

/-- `HandlerStateManager::cancel` (handler.rs lines 213-221): remove the
first slot with the given id and fire its signal; report whether a slot
was found. -/
def HandlerStateManager.cancel (m : HandlerStateManager) (id : Nat) : Bool × HandlerStateManager :=
  match position (fun s => s.id == id) m.pending with
  | some idx => (true, ⟨m.next_id, m.pending.eraseIdx idx⟩)
  | none => (false, m)

/-- `HandlerStateManager::remove_cancel` (handler.rs lines 224-228):
retain all slots whose id differs; report whether the length changed. -/
def HandlerStateManager.remove_cancel (m : HandlerStateManager) (id : Nat) :
    Bool × HandlerStateManager :=
  let pending := m.pending.filter (fun s => s.id != id)
  (decide (pending.length ≠ m.pending.length), ⟨m.next_id, pending⟩)

/-- Number of pending slots carrying a given id. -/
def countId (m : HandlerStateManager) (id : Nat) : Nat :=
  m.pending.countP (fun s => s.id == id)

theorem position_eq_none {p : Slot → Bool} :
    ∀ {l : List Slot}, position p l = none ↔ ∀ s ∈ l, p s = false := by
  intro l
  induction l with
  | nil => simp [position]
  | cons s rest ih =>
    by_cases h : p s
    · simp [position, h]
    · simp only [position, h, if_false, Bool.false_eq_true]
      constructor
      · intro hmap
        have : position p rest = none := by
          cases hpos : position p rest with
          | none => rfl
          | some n => rw [hpos] at hmap; simp at hmap
        intro t ht
        rcases List.mem_cons.mp ht with rfl | ht
        · simpa using h
        · exact ih.mp this t ht
      · intro hall
        have : position p rest = none := ih.mpr (fun t ht => hall t (List.mem_cons_of_mem _ ht))
        simp [this]

theorem position_some_exists {p : Slot → Bool} :
    ∀ {l : List Slot} {idx : Nat}, position p l = some idx → ∃ s ∈ l, p s = true := by
  intro l
  induction l with
  | nil => intro idx h; simp [position] at h
  | cons s rest ih =>
    intro idx h
    by_cases hp : p s
    · exact ⟨s, List.mem_cons_self .., hp⟩
    · simp only [position, hp, if_false, Bool.false_eq_true] at h
      cases hpos : position p rest with
      | none => rw [hpos] at h; simp at h
      | some n =>
        obtain ⟨t, ht, hpt⟩ := ih hpos
        exact ⟨t, List.mem_cons_of_mem _ ht, hpt⟩

theorem eraseFirst_countP {id : Nat} :
    ∀ {l : List Slot} {idx : Nat}, position (fun s => s.id == id) l = some idx →
      (l.eraseIdx idx).countP (fun s => s.id == id) + 1 = l.countP (fun s => s.id == id) := by
  intro l
  induction l with
  | nil => intro idx h; simp [position] at h
  | cons s rest ih =>
    intro idx h
    by_cases hp : s.id == id
    · simp only [position, hp, if_true] at h
      cases h
      simp [List.countP_cons, hp]
    · simp only [position, hp, Bool.false_eq_true, if_false] at h
      cases hpos : position (fun s => s.id == id) rest with
      | none => rw [hpos] at h; simp at h
      | some n =>
        rw [hpos] at h
        simp at h
        cases h
        have := ih hpos
        simp only [List.eraseIdx_cons_succ, List.countP_cons, hp]
        omega

theorem countId_zero_cancel {m : HandlerStateManager} {id : Nat} (h : countId m id = 0) :
    m.cancel id = (false, m) := by
  have hall : ∀ s ∈ m.pending, (s.id == id) = false := by
    intro s hs
    have := List.countP_eq_zero.mp h s hs
    simpa using this
  have hpos : position (fun s => s.id == id) m.pending = none := position_eq_none.mpr hall
  simp [HandlerStateManager.cancel, hpos]

theorem cancel_true_countId {m : HandlerStateManager} {id : Nat}
    (hle : countId m id ≤ 1) (h : (m.cancel id).1 = true) :
    countId (m.cancel id).2 id = 0 := by
  cases hpos : position (fun s => s.id == id) m.pending with
  | none => simp [HandlerStateManager.cancel, hpos] at h
  | some idx =>
    have := eraseFirst_countP (l := m.pending) hpos
    simp only [HandlerStateManager.cancel, hpos, countId] at *
    omega

theorem cancel_true_countId_pos {m : HandlerStateManager} {id : Nat}
    (h : (m.cancel id).1 = true) : 0 < countId m id := by
  cases hpos : position (fun s => s.id == id) m.pending with
  | none => simp [HandlerStateManager.cancel, hpos] at h
  | some idx =>
    obtain ⟨s, hs, hps⟩ := position_some_exists hpos
    exact List.countP_pos_iff.mpr ⟨s, hs, hps⟩

theorem cancel_countId_le {m : HandlerStateManager} {id : Nat} :
    countId (m.cancel id).2 id ≤ countId m id := by
  cases hpos : position (fun s => s.id == id) m.pending with
  | none => simp [HandlerStateManager.cancel, hpos]
  | some idx =>
    have := eraseFirst_countP (l := m.pending) hpos
    simp only [HandlerStateManager.cancel, hpos, countId] at *
    omega

theorem remove_cancel_countId {m : HandlerStateManager} {id : Nat} :
    countId (m.remove_cancel id).2 id = 0 := by
  simp only [HandlerStateManager.remove_cancel, countId]
  rw [List.countP_eq_zero]
  intro s hs
  have := (List.mem_filter.mp hs).2
  simpa using this

theorem countId_zero_remove_cancel {m : HandlerStateManager} {id : Nat} (h : countId m id = 0) :
    m.remove_cancel id = (false, m) := by
  have hall : ∀ s ∈ m.pending, (s.id != id) = true := by
    intro s hs
    have := List.countP_eq_zero.mp h s hs
    simpa using this
  have hfilter : m.pending.filter (fun s => s.id != id) = m.pending :=
    List.filter_eq_self.mpr hall
  simp [HandlerStateManager.remove_cancel, hfilter]

theorem remove_cancel_true_countId_pos {m : HandlerStateManager} {id : Nat}
    (h : (m.remove_cancel id).1 = true) : 0 < countId m id := by
  by_contra hc
  have h0 : countId m id = 0 := by omega
  rw [countId_zero_remove_cancel h0] at h
  simp at h

/-! ## Allocation sequences (handler.rs lines 198-210, for the id claims) -/

/-- The ids handed out by `k` consecutive calls to `new_cancel_id`. -/
def allocIds : HandlerStateManager → Nat → List Nat
  | _, 0 => []
  | m, k + 1 =>
    let r := m.new_cancel_id
    r.1 :: allocIds r.2 k

theorem new_cancel_id_fst (m : HandlerStateManager) : (m.new_cancel_id).1 = m.next_id := by
  cases hpos : position (fun s => s.closed) m.pending <;>
    simp [HandlerStateManager.new_cancel_id, hpos]

theorem new_cancel_id_next (m : HandlerStateManager) :
    (m.new_cancel_id).2.next_id = m.next_id + 1 := by
  cases hpos : position (fun s => s.closed) m.pending <;>
    simp [HandlerStateManager.new_cancel_id, hpos]

theorem allocIds_eq_range (m : HandlerStateManager) :
    ∀ k, allocIds m k = List.range' m.next_id k := by
  intro k
  induction k generalizing m with
  | zero => simp [allocIds]
  | succ n ih =>
    have h1 := new_cancel_id_fst m
    have h2 := new_cancel_id_next m
    simp only [allocIds, h1, List.range']
    rw [ih (m.new_cancel_id).2, h2]

/-! ## Single-task completion/cancellation lifecycle
(handler.rs lines 37-98 `Handler::spawn`, 249-258 `CancelHandle::cancel`,
231-238 `HandlerStateManager::drop`, 47-52 the wrapped completion handler)

One task, identified by its cancel id, interacting with its registry.
Scheduler events capture every interleaving of the background future,
the user's cancel handle, and the owner thread's message pump. -/

inductive Phase
  | running
  | delivering
  | finished
deriving Repr, DecidableEq

structure TaskSys where
  mgr : HandlerStateManager
  cancelId : Nat
  /-- the cancel signal was sent while the receiver was still open -/
  signalInChannel : Bool
  /-- `cancel_rx.close()` was executed (handler.rs line 63), or the
  wrapped future already exited and dropped the receiver -/
  rxClosed : Bool
  /-- the owner object (and with it the registry `Rc`) was dropped -/
  mgrDead : Bool
  phase : Phase
  /-- some `CancelHandle::cancel` call returned `true` -/
  cancelWon : Bool
  /-- how many times the user completion closure has run -/
  invokedCount : Nat
deriving Repr, DecidableEq

inductive TaskEv
  /-- `CancelHandle::cancel` on any clone of the handle (handler.rs 249-258) -/
  | cancelCall
  /-- the owner object is destroyed; `HandlerStateManager::drop` fires every
  pending signal and empties the table (handler.rs 231-238) -/
  | mgrDrop
  /-- the inner future resolves without panicking; the wrapper closes the
  cancel receiver and checks for a pending signal (handler.rs 62-71) -/
  | resolveOk
  /-- the inner future panicked; the wrapper reports and never delivers
  (handler.rs 72-87) -/
  | resolvePanicked
  /-- the select's `cancel_rx` branch fires first (handler.rs 89) -/
  | cancelBranch
  /-- the owner thread pumps the marshaled completion; the wrapped handler
  runs iff the object is alive, and invokes the user closure iff removing
  the cancel id succeeds (handler.rs 47-52, context.rs 144) -/
  | deliver (aliveAtPump : Bool)
deriving Repr, DecidableEq

def taskStep (s : TaskSys) : TaskEv → TaskSys
  | TaskEv.cancelCall =>
    if s.mgrDead then s
    else
      { s with
        mgr := (s.mgr.cancel s.cancelId).2
        signalInChannel := s.signalInChannel || ((s.mgr.cancel s.cancelId).1 && !s.rxClosed)
        cancelWon := s.cancelWon || (s.mgr.cancel s.cancelId).1 }
  | TaskEv.mgrDrop =>
    if s.mgrDead then s
    else
      { s with
        mgr := ⟨s.mgr.next_id, []⟩
        mgrDead := true
        signalInChannel :=
          s.signalInChannel || (!(decide (countId s.mgr s.cancelId = 0)) && !s.rxClosed) }
  | TaskEv.resolveOk =>
    if s.phase = Phase.running then
      if s.signalInChannel then { s with rxClosed := true, phase := Phase.finished }
      else { s with rxClosed := true, phase := Phase.delivering }
    else s
  | TaskEv.resolvePanicked =>
    if s.phase = Phase.running then { s with rxClosed := true, phase := Phase.finished }
    else s
  | TaskEv.cancelBranch =>
    if s.phase = Phase.running then
      if s.signalInChannel then { s with rxClosed := true, phase := Phase.finished }
      else s
    else s
  | TaskEv.deliver aliveAtPump =>
    if s.phase = Phase.delivering then
      if aliveAtPump && !s.mgrDead then
        { s with
          phase := Phase.finished
          mgr := (s.mgr.remove_cancel s.cancelId).2
          invokedCount :=
            s.invokedCount + (if (s.mgr.remove_cancel s.cancelId).1 then 1 else 0) }
      else { s with phase := Phase.finished }
    else s

def taskRun (s : TaskSys) : List TaskEv → TaskSys
  | [] => s
  | e :: evs => taskRun (taskStep s e) evs

/-- Invariant carried through every interleaving of the task lifecycle. -/
def TaskInv (s : TaskSys) : Prop :=
  countId s.mgr s.cancelId ≤ 1 ∧
  s.invokedCount ≤ 1 ∧
  (s.cancelWon = true → s.invokedCount = 0 ∧ countId s.mgr s.cancelId = 0) ∧
  (1 ≤ s.invokedCount → s.phase = Phase.finished ∧ countId s.mgr s.cancelId = 0)

theorem taskStep_inv {s : TaskSys} (h : TaskInv s) (e : TaskEv) : TaskInv (taskStep s e) := by
  obtain ⟨h1, h2, h3, h4⟩ := h
  cases e with
  | cancelCall =>
    by_cases hd : s.mgrDead = true
    · have hstep : taskStep s TaskEv.cancelCall = s := by simp [taskStep, hd]
      rw [hstep]
      exact ⟨h1, h2, h3, h4⟩
    · have hstep : taskStep s TaskEv.cancelCall =
          { s with
            mgr := (s.mgr.cancel s.cancelId).2
            signalInChannel := s.signalInChannel || ((s.mgr.cancel s.cancelId).1 && !s.rxClosed)
            cancelWon := s.cancelWon || (s.mgr.cancel s.cancelId).1 } := by
        simp [taskStep, hd]
      rw [hstep]
      unfold TaskInv
      dsimp only
      cases hr : (s.mgr.cancel s.cancelId).1 with
      | false =>
        have heq : (s.mgr.cancel s.cancelId).2 = s.mgr := by
          cases hpos : position (fun t => t.id == s.cancelId) s.mgr.pending with
          | none => simp [HandlerStateManager.cancel, hpos]
          | some idx => simp [HandlerStateManager.cancel, hpos] at hr
        rw [heq]
        refine ⟨h1, h2, ?_, h4⟩
        intro hw
        simp only [Bool.or_false] at hw
        exact h3 hw
      | true =>
        have hposc := cancel_true_countId_pos hr
        have hzero := cancel_true_countId h1 hr
        refine ⟨by omega, h2, ?_, ?_⟩
        · intro _
          refine ⟨?_, hzero⟩
          by_contra hne
          have hi : 1 ≤ s.invokedCount := by omega
          have := (h4 hi).2
          omega
        · intro hi
          exact ⟨(h4 hi).1, hzero⟩
  | mgrDrop =>
    by_cases hd : s.mgrDead = true
    · have hstep : taskStep s TaskEv.mgrDrop = s := by simp [taskStep, hd]
      rw [hstep]
      exact ⟨h1, h2, h3, h4⟩
    · have hstep : taskStep s TaskEv.mgrDrop =
          { s with
            mgr := ⟨s.mgr.next_id, []⟩
            mgrDead := true
            signalInChannel :=
              s.signalInChannel ||
                (!(decide (countId s.mgr s.cancelId = 0)) && !s.rxClosed) } := by
        simp [taskStep, hd]
      rw [hstep]
      unfold TaskInv
      dsimp only
      have hnil : countId ⟨s.mgr.next_id, ([] : List Slot)⟩ s.cancelId = 0 := by
        simp [countId]
      refine ⟨by omega, h2, ?_, ?_⟩
      · intro hw
        exact ⟨(h3 hw).1, hnil⟩
      · intro hi
        exact ⟨(h4 hi).1, hnil⟩
  | resolveOk =>
    by_cases hp : s.phase = Phase.running
    · by_cases hsig : s.signalInChannel = true
      · have hstep : taskStep s TaskEv.resolveOk =
            { s with rxClosed := true, phase := Phase.finished } := by
          simp [taskStep, hp, hsig]
        rw [hstep]
        exact ⟨h1, h2, fun hw => h3 hw, fun hi => ⟨rfl, (h4 hi).2⟩⟩
      · have hstep : taskStep s TaskEv.resolveOk =
            { s with rxClosed := true, phase := Phase.delivering } := by
          simp [taskStep, hp, hsig]
        rw [hstep]
        refine ⟨h1, h2, fun hw => h3 hw, fun hi => ?_⟩
        have hcontr := (h4 hi).1
        rw [hp] at hcontr
        cases hcontr
    · have hstep : taskStep s TaskEv.resolveOk = s := by simp [taskStep, hp]
      rw [hstep]
      exact ⟨h1, h2, h3, h4⟩
  | resolvePanicked =>
    by_cases hp : s.phase = Phase.running
    · have hstep : taskStep s TaskEv.resolvePanicked =
          { s with rxClosed := true, phase := Phase.finished } := by
        simp [taskStep, hp]
      rw [hstep]
      exact ⟨h1, h2, fun hw => h3 hw, fun hi => ⟨rfl, (h4 hi).2⟩⟩
    · have hstep : taskStep s TaskEv.resolvePanicked = s := by simp [taskStep, hp]
      rw [hstep]
      exact ⟨h1, h2, h3, h4⟩
  | cancelBranch =>
    by_cases hp : s.phase = Phase.running
    · by_cases hsig : s.signalInChannel = true
      · have hstep : taskStep s TaskEv.cancelBranch =
            { s with rxClosed := true, phase := Phase.finished } := by
          simp [taskStep, hp, hsig]
        rw [hstep]
        exact ⟨h1, h2, fun hw => h3 hw, fun hi => ⟨rfl, (h4 hi).2⟩⟩
      · have hstep : taskStep s TaskEv.cancelBranch = s := by simp [taskStep, hp, hsig]
        rw [hstep]
        exact ⟨h1, h2, h3, h4⟩
    · have hstep : taskStep s TaskEv.cancelBranch = s := by simp [taskStep, hp]
      rw [hstep]
      exact ⟨h1, h2, h3, h4⟩
  | deliver aliveAtPump =>
    by_cases hp : s.phase = Phase.delivering
    · by_cases halive : (aliveAtPump && !s.mgrDead) = true
      · have hstep : taskStep s (TaskEv.deliver aliveAtPump) =
            { s with
              phase := Phase.finished
              mgr := (s.mgr.remove_cancel s.cancelId).2
              invokedCount :=
                s.invokedCount + (if (s.mgr.remove_cancel s.cancelId).1 then 1 else 0) } := by
          simp [taskStep, hp, halive]
        rw [hstep]
        unfold TaskInv
        dsimp only
        have hrem : countId (s.mgr.remove_cancel s.cancelId).2 s.cancelId = 0 :=
          remove_cancel_countId
        cases hr : (s.mgr.remove_cancel s.cancelId).1 with
        | false =>
          simp only [Bool.false_eq_true, if_false, Nat.add_zero]
          refine ⟨by omega, h2, ?_, ?_⟩
          · intro hw
            exact ⟨(h3 hw).1, hrem⟩
          · intro _
            exact ⟨by simp, hrem⟩
        | true =>
          have hzero : s.invokedCount = 0 := by
            by_contra hne
            have hi : 1 ≤ s.invokedCount := by omega
            have hcontr := (h4 hi).1
            rw [hp] at hcontr
            cases hcontr
          have hposc := remove_cancel_true_countId_pos hr
          simp only [if_true]
          refine ⟨by omega, by omega, ?_, ?_⟩
          · intro hw
            have := (h3 hw).2
            omega
          · intro _
            exact ⟨by simp, hrem⟩
      · have hstep : taskStep s (TaskEv.deliver aliveAtPump) =
            { s with phase := Phase.finished } := by
          simp only [taskStep, hp, if_true, halive, Bool.false_eq_true, if_false]
        rw [hstep]
        exact ⟨h1, h2, fun hw => h3 hw, fun hi => ⟨rfl, (h4 hi).2⟩⟩
    · have hstep : taskStep s (TaskEv.deliver aliveAtPump) = s := by simp [taskStep, hp]
      rw [hstep]
      exact ⟨h1, h2, h3, h4⟩

theorem taskRun_inv {s : TaskSys} (h : TaskInv s) :
    ∀ evs : List TaskEv, TaskInv (taskRun s evs) := by
  intro evs
  induction evs generalizing s with
  | nil => simpa [taskRun] using h
  | cons e rest ih => exact ih (taskStep_inv h e)

/-! ## Owner-thread pump of one Invoke envelope
(context.rs lines 133-174 `SyncContext::wnd_proc`, and the type-erased
handler closure built in handler.rs lines 305-318 / 358-371)

`wnd_proc` unpacks the envelope, acknowledges receipt, computes the
invoke flag as `payload.alive.is_alive() && has_rx` at execution time,
and runs the handler under `catch_unwind`; the handler unconditionally
unpacks the parameter, runs the user closure only when the flag is set,
and sends the optional result on the one-shot channel (the send is
skipped, dropping the sender, when the closure panicked). -/

structure PumpRes (R : Type) where
  envUnpacks : Nat
  paramUnpacks : Nat
  closureRan : Bool
  invokeFlag : Bool
  /-- what arrived on the result one-shot: `some (some r)` a returned
  value, `some none` the closure was skipped, `none` the sender was
  dropped because the closure panicked -/
  sent : Option (Option R)
  /-- a panic escaped into the foreign event loop -/
  panickedOut : Bool
deriving Repr, DecidableEq

def wndProcInvoke {R : Type} (aliveAtPump hasRx panics : Bool) (rv : R) : PumpRes R :=
  if aliveAtPump && hasRx then
    if panics then ⟨1, 1, true, aliveAtPump && hasRx, none, false⟩
    else ⟨1, 1, true, aliveAtPump && hasRx, some (some rv), false⟩
  else ⟨1, 1, false, aliveAtPump && hasRx, some none, false⟩

/-! ## `HandlerInvoker::invoke` result (handler.rs lines 294-331 and the
identical blocking variant, lines 347-384) -/

inductive InvokeError
  | TargetIsDead
  | Panic
deriving Repr, DecidableEq

/-- The result of `invoke`/`blocking_invoke` as a function of the early
aliveness check, the dispatch result, and what the one-shot result
channel yields (`none` models `rx` failing because `tx` was dropped). -/
def invokeResult {R : Type} (preDead dispatchOk : Bool) (rx : Option (Option R)) :
    Except InvokeError R :=
  if preDead then Except.error InvokeError.TargetIsDead
  else if !dispatchOk then Except.error InvokeError.TargetIsDead
  else
    match rx with
    | some (some rv) => Except.ok rv
    | some none => Except.error InvokeError.TargetIsDead
    | none => Except.error InvokeError.Panic

/-! ## `Dispatcher::post_message` (context.rs lines 370-419)

The loop around `PostMessageA` is driven by the oracle list of outcomes
of the successive post attempts; an exhausted oracle means the loop is
still retrying. -/

inductive PostAttempt
  | ok
  /-- `ERROR_NOT_ENOUGH_QUOTA`: the message queue is full (context.rs 397) -/
  | queueFull
  /-- any other failure: the target window is destroyed (context.rs 404) -/
  | hardFail
deriving Repr, DecidableEq

structure PostOutcome where
  /-- `Some(..)` was returned: the envelope is in the owner queue -/
  posted : Bool
  envUnpacks : Nat
  paramUnpacks : Nat
  /-- the handler was self-delivered with `alive = false` (context.rs 407) -/
  handlerAliveFalse : Bool
  /-- number of backoff sleeps taken on queue-full -/
  retries : Nat
deriving Repr, DecidableEq

def post_message : List PostAttempt → Option PostOutcome
  | [] => none
  | PostAttempt.ok :: _ => some ⟨true, 0, 0, false, 0⟩
  | PostAttempt.queueFull :: rest =>
    (post_message rest).map (fun o => { o with retries := o.retries + 1 })
  | PostAttempt.hardFail :: _ => some ⟨false, 1, 1, true, 0⟩

/-! ## The in-flight envelope after a successful post
(context.rs lines 269-302 `Dispatcher::dispatch` wait loop, lines
133-174 `wnd_proc`, lines 182-205 window destruction)

One envelope sitting in the owner queue, with the background sender
waiting for the acknowledgment.  Events interleave the owner thread
(pumping, destroying the target object, destroying the context window)
with the sender side of the 100ms select loop. -/

/-- The re-poll/backoff interval used throughout context.rs
(lines 279, 363, 401). -/
def pollIntervalMillis : Nat := 100

structure DispSt where
  /-- the posted message is still in the owner queue -/
  posted : Bool
  winAlive : Bool
  objAlive : Bool
  /-- `pack.tx.send(())` has been executed by `wnd_proc` -/
  ackSent : Bool
  /-- the value `dispatch` returned, when it has -/
  senderDone : Option Bool
  /-- `dispatch` declared failure while the ack had already been sent -/
  failedWithAckSent : Bool
  envUnpacks : Nat
  paramUnpacks : Nat
  closureRan : Bool
deriving Repr, DecidableEq

inductive DispEv
  /-- the target object is destroyed on the owner thread -/
  | destroyObj
  /-- the context window is destroyed (context.rs 188) -/
  | destroyWin
  /-- the owner thread pumps the queued message: `wnd_proc` unpacks the
  envelope, acknowledges, and runs the handler (context.rs 139-144) -/
  | pump
  /-- the select's `rx` branch observes the acknowledgment
  (context.rs 278) -/
  | senderAck
  /-- the select's 100ms timer branch fires: re-poll aliveness, with a
  final `try_recv` before tearing the envelope down (context.rs 279-295) -/
  | senderTick
deriving Repr, DecidableEq

def dispStep (s : DispSt) : DispEv → DispSt
  | DispEv.destroyObj => { s with objAlive := false }
  | DispEv.destroyWin => { s with winAlive := false }
  | DispEv.pump =>
    if s.posted && s.winAlive then
      { s with
        posted := false
        ackSent := true
        envUnpacks := s.envUnpacks + 1
        paramUnpacks := s.paramUnpacks + 1
        closureRan := s.closureRan || (s.objAlive && (s.senderDone == none)) }
    else s
  | DispEv.senderAck =>
    if s.senderDone == none && s.ackSent then { s with senderDone := some true } else s
  | DispEv.senderTick =>
    if s.senderDone == none then
      if !s.objAlive || !s.winAlive then
        if s.ackSent then { s with senderDone := some true }
        else
          { s with
            senderDone := some false
            failedWithAckSent := s.ackSent
            envUnpacks := s.envUnpacks + 1
            paramUnpacks := s.paramUnpacks + 1 }
      else s
    else s

def dispRun (s : DispSt) : List DispEv → DispSt
  | [] => s
  | e :: evs => dispRun (dispStep s e) evs

/-- State right after `PostMessageA` succeeded. -/
def dispInit : DispSt :=
  { posted := true
    winAlive := true
    objAlive := true
    ackSent := false
    senderDone := none
    failedWithAckSent := false
    envUnpacks := 0
    paramUnpacks := 0
    closureRan := false }

theorem dispStep_failedWithAckSent {s : DispSt} (h : s.failedWithAckSent = false) (e : DispEv) :
    (dispStep s e).failedWithAckSent = false := by
  cases e with
  | destroyObj => simpa [dispStep] using h
  | destroyWin => simpa [dispStep] using h
  | pump =>
    by_cases hc : (s.posted && s.winAlive) = true
    · simpa [dispStep, hc] using h
    · simpa [dispStep, hc] using h
  | senderAck =>
    by_cases hc : (s.senderDone == none && s.ackSent) = true
    · simpa [dispStep, hc] using h
    · simpa [dispStep, hc] using h
  | senderTick =>
    by_cases h1 : (s.senderDone == none) = true
    · by_cases h2 : (!s.objAlive || !s.winAlive) = true
      · by_cases h3 : s.ackSent = true
        · simpa [dispStep, h1, h2, h3] using h
        · have hx : s.ackSent = false := by
            cases hax : s.ackSent with
            | true => rw [hax] at h3; cases h3 rfl
            | false => rfl
          simp [dispStep, h1, h2, h3, hx]
      · simpa [dispStep, h1, h2] using h
    · simpa [dispStep, h1] using h

theorem dispRun_failedWithAckSent {s : DispSt} (h : s.failedWithAckSent = false) :
    ∀ evs : List DispEv, (dispRun s evs).failedWithAckSent = false := by
  intro evs
  induction evs generalizing s with
  | nil => simpa [dispRun] using h
  | cons e rest ih => exact ih (dispStep_failedWithAckSent h e)

/-! ## `Dispatcher::dispatch_blocking` wait loop (context.rs lines 338-368)

Each loop iteration first does a non-blocking receive of the
acknowledgment (line 346), *then* polls aliveness (lines 350-351) and on
death tears the envelope down immediately — so an acknowledgment that
arrives between those two steps is not seen. -/

structure BWaitSt where
  ackSent : Bool
  result : Option Bool
  failedWithAckSent : Bool
  envUnpacks : Nat
  paramUnpacks : Nat
deriving Repr, DecidableEq

/-- Oracle for one iteration of the blocking wait loop. -/
structure BIter where
  /-- the ack has arrived by the time `rx.try_recv()` runs (line 346) -/
  ackAtTry : Bool
  /-- the owner pumps the message between `try_recv` and the aliveness
  check -/
  ackBetween : Bool
  /-- `alive.is_dead() || !IsWindow(hwnd)` observed (lines 350-351) -/
  deadOrGone : Bool
deriving Repr, DecidableEq

def bwaitStep (s : BWaitSt) (it : BIter) : BWaitSt :=
  if s.result == none then
    if s.ackSent || it.ackAtTry then
      { s with ackSent := true, result := some true }
    else
      if it.deadOrGone then
        { s with
          ackSent := s.ackSent || it.ackBetween
          result := some false
          failedWithAckSent := s.ackSent || it.ackBetween
          envUnpacks := s.envUnpacks + 1
          paramUnpacks := s.paramUnpacks + 1 }
      else { s with ackSent := s.ackSent || it.ackBetween }
  else s

def bwaitRun (s : BWaitSt) : List BIter → BWaitSt
  | [] => s
  | it :: l => bwaitRun (bwaitStep s it) l

def bwaitInit : BWaitSt :=
  { ackSent := false
    result := none
    failedWithAckSent := false
    envUnpacks := 0
    paramUnpacks := 0 }

/-! ## Global background runtime (src/src/reactor/runtime.rs, lines 13-46)

`GLOBAL_RUNTIME` is modelled by `Option Bool`: `none` when the mutex
holds `None`, `some closed` when a runtime exists whose submission
channel is (`true`) or is not (`false`) closed.  A freshly created
runtime asserts its channel open (runtime.rs line 194). -/

inductive SpawnOutcome
  | sent
  | panicked
deriving Repr, DecidableEq

/-- `runtime::spawn` (runtime.rs lines 17-36): lazily creates the
runtime when absent, then sends the task; panics only when the send
fails. -/
def rt_spawn : Option Bool → SpawnOutcome × Option Bool
  | none => (SpawnOutcome.sent, some false)
  | some closed => ((if closed then SpawnOutcome.panicked else SpawnOutcome.sent), some closed)

/-- `runtime::shutdown` (runtime.rs lines 39-46): drops the runtime. -/
def rt_shutdown (_ : Option Bool) : Option Bool := none

/-! ## Entry of `HandlerInvoker::invoke` / `blocking_invoke`
(handler.rs lines 294-331 and 347-384)

Both start with `assert_ne!(self.thread_id, thread::current().id())`
(lines 300 and 353), before the aliveness check, before the parameter is
packed and before anything is dispatched. -/

inductive EntryOutcome
  | assertPanic
  | deadErr
  | dispatched
deriving Repr, DecidableEq

structure EntrySt where
  outcome : EntryOutcome
  envelopesPacked : Nat
  messagesPosted : Nat
deriving Repr, DecidableEq

def invoke_entry (boundThread curThread : Nat) (preDead : Bool) : EntrySt :=
  if boundThread = curThread then ⟨EntryOutcome.assertPanic, 0, 0⟩
  else if preDead then ⟨EntryOutcome.deadErr, 0, 0⟩
  else ⟨EntryOutcome.dispatched, 1, 1⟩

def blocking_invoke_entry (boundThread curThread : Nat) (preDead : Bool) : EntrySt :=
  if boundThread = curThread then ⟨EntryOutcome.assertPanic, 0, 0⟩
  else if preDead then ⟨EntryOutcome.deadErr, 0, 0⟩
  else ⟨EntryOutcome.dispatched, 1, 1⟩

/-! ## Remaining helper lemmas -/

theorem allocIds_lower :
    ∀ (k : Nat) (m : HandlerStateManager) (x : Nat), x ∈ allocIds m k → m.next_id ≤ x := by
  intro k
  induction k with
  | zero => intro m x hx; simp [allocIds] at hx
  | succ n ih =>
    intro m x hx
    have hx2 : x ∈ (m.new_cancel_id).1 :: allocIds (m.new_cancel_id).2 n := hx
    rcases List.mem_cons.mp hx2 with rfl | hmem
    · rw [new_cancel_id_fst]
    · have := ih (m.new_cancel_id).2 x hmem
      rw [new_cancel_id_next] at this
      omega

theorem allocIds_chain :
    ∀ (k : Nat) (m : HandlerStateManager), List.Chain' (fun a b => a < b) (allocIds m k) := by
  intro k
  induction k with
  | zero => intro m; simp [allocIds]
  | succ n ih =>
    intro m
    show List.Chain' (fun a b => a < b) ((m.new_cancel_id).1 :: allocIds (m.new_cancel_id).2 n)
    refine List.chain'_cons'.mpr ⟨?_, ih _⟩
    intro y hy
    have hl : allocIds (m.new_cancel_id).2 n = y :: _ := List.eq_cons_of_mem_head? hy
    have hmem : y ∈ allocIds (m.new_cancel_id).2 n := by
      rw [hl]; exact List.mem_cons_self ..
    have := allocIds_lower n (m.new_cancel_id).2 y hmem
    rw [new_cancel_id_next] at this
    rw [new_cancel_id_fst]
    omega

/-! ## The claims -/

/-- C9: `new_cancel_id` returns the current `next_id` counter and then
increments it, so consecutive calls hand out strictly increasing ids;
the new slot overwrites the first pending slot whose sender channel is
already closed when such a slot exists — keeping the pending vector's
length unchanged — and is appended only when no slot is closed. -/
theorem C9_new_cancel_id_spec (m : HandlerStateManager) :
    (m.new_cancel_id).1 = m.next_id ∧
    (m.new_cancel_id).2.next_id = m.next_id + 1 ∧
    (∀ k, List.Chain' (fun a b => a < b) (allocIds m k)) ∧
    (∀ idx, position (fun s => s.closed) m.pending = some idx →
      (m.new_cancel_id).2.pending = m.pending.set idx ⟨m.next_id, false⟩) ∧
    (position (fun s => s.closed) m.pending = none →
      (m.new_cancel_id).2.pending = m.pending ++ [⟨m.next_id, false⟩]) ∧
    ((∃ s ∈ m.pending, s.closed = true) →
      (m.new_cancel_id).2.pending.length = m.pending.length) := by
  refine ⟨new_cancel_id_fst m, new_cancel_id_next m, fun k => allocIds_chain k m, ?_, ?_, ?_⟩
  · intro idx hpos
    simp [HandlerStateManager.new_cancel_id, hpos]
  · intro hpos
    simp [HandlerStateManager.new_cancel_id, hpos]
  · intro hex
    cases hpos : position (fun s => s.closed) m.pending with
    | none =>
      obtain ⟨s, hs, hcl⟩ := hex
      have := position_eq_none.mp hpos s hs
      rw [hcl] at this
      cases this
    | some idx =>
      simp [HandlerStateManager.new_cancel_id, hpos]

theorem C9_witness :
    ((⟨7, [⟨3, true⟩]⟩ : HandlerStateManager).new_cancel_id).2.pending.length =
      (⟨7, [⟨3, true⟩]⟩ : HandlerStateManager).pending.length :=
  (C9_new_cancel_id_spec ⟨7, [⟨3, true⟩]⟩).2.2.2.2.2 ⟨⟨3, true⟩, by simp, rfl⟩

/-- C8: cancelling a task twice, or cancelling after its completion was
delivered (`remove_cancel` ran), makes the second/late `cancel` a no-op:
it finds no slot, reports `false`, leaves the registry unchanged, and —
since the signal is only fired on a found slot — sends no second
cancellation signal. -/
theorem C8_cancel_idempotent (m : HandlerStateManager) (id : Nat) (h : countId m id ≤ 1) :
    ((m.cancel id).1 = true → (m.cancel id).2.cancel id = (false, (m.cancel id).2)) ∧
    (m.remove_cancel id).2.cancel id = (false, (m.remove_cancel id).2) := by
  constructor
  · intro hfirst
    exact countId_zero_cancel (cancel_true_countId h hfirst)
  · exact countId_zero_cancel remove_cancel_countId

theorem C8_witness :
    ((⟨2, [⟨1, false⟩]⟩ : HandlerStateManager).cancel 1).2.cancel 1 =
      (false, ((⟨2, [⟨1, false⟩]⟩ : HandlerStateManager).cancel 1).2) :=
  (C8_cancel_idempotent ⟨2, [⟨1, false⟩]⟩ 1 (by decide)).1 (by decide)

/-- C2: along every interleaving of cancel calls, registry drop, future
resolution and owner-thread delivery of one spawned task, the user
completion closure runs at most once and never in an execution where a
`cancel` call succeeded; at delivery time the closure runs exactly when
removing the cancel id from the live registry succeeds, and a
cancellation signal found pending when the inner future resolves makes
the wrapper skip delivery entirely. -/
theorem C2_completion_cancel_exclusive (evs : List TaskEv) (m : HandlerStateManager)
    (id : Nat) (hid : countId m id ≤ 1) :
    (taskRun ⟨m, id, false, false, false, Phase.running, false, 0⟩ evs).invokedCount ≤ 1 ∧
    ((taskRun ⟨m, id, false, false, false, Phase.running, false, 0⟩ evs).cancelWon = true →
      (taskRun ⟨m, id, false, false, false, Phase.running, false, 0⟩ evs).invokedCount = 0) ∧
    (∀ t : TaskSys, t.phase = Phase.delivering →
      (taskStep t (TaskEv.deliver true)).invokedCount =
        t.invokedCount +
          (if t.mgrDead = false ∧ (t.mgr.remove_cancel t.cancelId).1 = true then 1 else 0)) ∧
    (∀ t : TaskSys, t.phase = Phase.running → t.signalInChannel = true →
      (taskStep t TaskEv.resolveOk).phase = Phase.finished ∧
      (taskStep t TaskEv.resolveOk).invokedCount = t.invokedCount) := by
  have hinv : TaskInv ⟨m, id, false, false, false, Phase.running, false, 0⟩ := by
    unfold TaskInv
    dsimp only
    refine ⟨hid, by omega, ?_, ?_⟩
    · intro hw; cases hw
    · intro hi; exact absurd hi (by omega)
  obtain ⟨-, h2, h3, -⟩ := taskRun_inv hinv evs
  refine ⟨h2, fun hw => (h3 hw).1, ?_, ?_⟩
  · intro t ht
    by_cases hd : t.mgrDead = true
    · have hstep : taskStep t (TaskEv.deliver true) = { t with phase := Phase.finished } := by
        simp [taskStep, ht, hd]
      rw [hstep]
      simp [hd]
    · have hmd : t.mgrDead = false := by
        cases hx : t.mgrDead with
        | true => rw [hx] at hd; cases hd rfl
        | false => rfl
      have hstep : taskStep t (TaskEv.deliver true) =
          { t with
            phase := Phase.finished
            mgr := (t.mgr.remove_cancel t.cancelId).2
            invokedCount :=
              t.invokedCount + (if (t.mgr.remove_cancel t.cancelId).1 then 1 else 0) } := by
        simp [taskStep, ht, hmd]
      rw [hstep]
      cases hr : (t.mgr.remove_cancel t.cancelId).1 with
      | false => simp [hmd, hr]
      | true => simp [hmd, hr]
  · intro t ht hsig
    have hstep : taskStep t TaskEv.resolveOk =
        { t with rxClosed := true, phase := Phase.finished } := by
      simp [taskStep, ht, hsig]
    rw [hstep]
    exact ⟨rfl, rfl⟩

theorem C2_witness :
    (taskRun ⟨⟨1, [⟨0, false⟩]⟩, 0, false, false, false, Phase.running, false, 0⟩
        [TaskEv.cancelCall, TaskEv.resolveOk, TaskEv.deliver true]).invokedCount ≤ 1 :=
  (C2_completion_cancel_exclusive [TaskEv.cancelCall, TaskEv.resolveOk, TaskEv.deliver true]
    ⟨1, [⟨0, false⟩]⟩ 0 (by decide)).1

/-- C3: when the owner object is destroyed after the future resolved but
before the owner thread pumps the marshaled message, the window
procedure computes the invoke flag at pump time as the conjunction of
the aliveness check and the acknowledgment sender still having a
receiver; with the object dead the user closure does not run, the
parameter box is still released exactly once, the result one-shot
carries `none`, and no panic escapes into the event loop. -/
theorem C3_liveness_race {R : Type} (aliveAtPump hasRx panics : Bool) (rv : R)
    (hdead : aliveAtPump = false) :
    (wndProcInvoke aliveAtPump hasRx panics rv).invokeFlag = (aliveAtPump && hasRx) ∧
    (wndProcInvoke aliveAtPump hasRx panics rv).closureRan = false ∧
    (wndProcInvoke aliveAtPump hasRx panics rv).paramUnpacks = 1 ∧
    (wndProcInvoke aliveAtPump hasRx panics rv).envUnpacks = 1 ∧
    (wndProcInvoke aliveAtPump hasRx panics rv).sent = some none ∧
    (wndProcInvoke aliveAtPump hasRx panics rv).panickedOut = false := by
  subst hdead
  simp [wndProcInvoke]

theorem C3_witness :
    (wndProcInvoke false true false (0 : Nat)).closureRan = false ∧
    (wndProcInvoke false true false (0 : Nat)).sent = some none :=
  ⟨(C3_liveness_race false true false 0 rfl).2.1,
   (C3_liveness_race false true false 0 rfl).2.2.2.2.1⟩

/-- C5: `invoke`/`blocking_invoke` return `TargetIsDead` when the
pre-dispatch aliveness check fails or the dispatcher reports failure,
and when the owner-thread re-check at unbox time skipped the closure so
the one-shot yields `none`; they return `Panic` exactly when the user
closure panicked while running on the owner thread (caught there, so
nothing escapes the event loop); and they return `Ok rv` exactly when
the closure ran and returned `rv`. -/
theorem C5_invoke_error_taxonomy {R : Type} (preDead dispatchOk aliveAtPump hasRx panics : Bool)
    (rv : R) :
    (preDead = true → ∀ rx : Option (Option R),
      invokeResult preDead dispatchOk rx = Except.error InvokeError.TargetIsDead) ∧
    (dispatchOk = false → ∀ rx : Option (Option R),
      invokeResult preDead dispatchOk rx = Except.error InvokeError.TargetIsDead) ∧
    (preDead = false → dispatchOk = true →
      ((invokeResult preDead dispatchOk (wndProcInvoke aliveAtPump hasRx panics rv).sent =
          Except.error InvokeError.Panic) ↔
        ((aliveAtPump && hasRx) = true ∧ panics = true)) ∧
      ((invokeResult preDead dispatchOk (wndProcInvoke aliveAtPump hasRx panics rv).sent =
          Except.ok rv) ↔
        ((aliveAtPump && hasRx) = true ∧ panics = false)) ∧
      ((aliveAtPump && hasRx) = false →
        invokeResult preDead dispatchOk (wndProcInvoke aliveAtPump hasRx panics rv).sent =
          Except.error InvokeError.TargetIsDead) ∧
      (wndProcInvoke aliveAtPump hasRx panics rv).panickedOut = false) := by
  refine ⟨?_, ?_, ?_⟩
  · intro hpd rx
    simp [invokeResult, hpd]
  · intro hdo rx
    cases hpd : preDead with
    | true => simp [invokeResult, hpd]
    | false => simp [invokeResult, hpd, hdo]
  · intro hpd hdo
    subst hpd
    subst hdo
    cases aliveAtPump <;> cases hasRx <;> cases panics <;>
      simp [invokeResult, wndProcInvoke]

theorem C5_witness :
    invokeResult false true (wndProcInvoke true true false (7 : Nat)).sent = Except.ok 7 :=
  (((C5_invoke_error_taxonomy false true true true false 7).2.2 rfl rfl).2.1).mpr ⟨rfl, rfl⟩

/-- C6: a queue-full error from `PostMessageA` is never a hard failure —
an oracle consisting only of queue-full outcomes keeps the loop retrying
and never produces a result; the first differing outcome decides: a hard
failure makes the sender itself unpack the envelope and run the handler
with `alive = false`, releasing the parameter, and the operation reports
failure, while success leaves the envelope untouched in the queue. -/
theorem C6_post_message_failure (attempts : List PostAttempt) :
    (∀ o, post_message attempts = some o → o.posted = false →
      o.envUnpacks = 1 ∧ o.paramUnpacks = 1 ∧ o.handlerAliveFalse = true ∧
      (attempts.dropWhile (fun a => a == PostAttempt.queueFull)).head? =
        some PostAttempt.hardFail) ∧
    ((∀ a ∈ attempts, a = PostAttempt.queueFull) → post_message attempts = none) ∧
    (∀ o, post_message attempts = some o → o.posted = true →
      o.envUnpacks = 0 ∧ o.paramUnpacks = 0 ∧ o.handlerAliveFalse = false ∧
      (attempts.dropWhile (fun a => a == PostAttempt.queueFull)).head? =
        some PostAttempt.ok) := by
  induction attempts with
  | nil =>
    refine ⟨?_, ?_, ?_⟩ <;> intro o <;> simp_all [post_message]
  | cons a rest ih =>
    obtain ⟨ih1, ih2, ih3⟩ := ih
    cases a with
    | ok =>
      refine ⟨?_, ?_, ?_⟩
      · intro o ho hp
        have ho2 : some (⟨true, 0, 0, false, 0⟩ : PostOutcome) = some o := ho
        have : o = ⟨true, 0, 0, false, 0⟩ := (Option.some.injEq _ _ ▸ ho2).symm
        rw [this] at hp
        simp at hp
      · intro hall
        have := hall PostAttempt.ok (List.mem_cons_self ..)
        exact absurd this (by decide)
      · intro o ho hp
        have ho2 : some (⟨true, 0, 0, false, 0⟩ : PostOutcome) = some o := ho
        have hoeq : o = ⟨true, 0, 0, false, 0⟩ := (Option.some.injEq _ _ ▸ ho2).symm
        subst hoeq
        refine ⟨rfl, rfl, rfl, rfl⟩
    | queueFull =>
      refine ⟨?_, ?_, ?_⟩
      · intro o ho hp
        cases hrest : post_message rest with
        | none =>
          rw [show post_message (PostAttempt.queueFull :: rest) =
            (post_message rest).map (fun o => { o with retries := o.retries + 1 }) from rfl,
            hrest] at ho
          simp at ho
        | some o2 =>
          rw [show post_message (PostAttempt.queueFull :: rest) =
            (post_message rest).map (fun o => { o with retries := o.retries + 1 }) from rfl,
            hrest] at ho
          simp only [Option.map_some', Option.some.injEq] at ho
          subst ho
          have := ih1 o2 hrest (by simpa using hp)
          simpa using this
      · intro hall
        have hres := ih2 (fun x hx => hall x (List.mem_cons_of_mem _ hx))
        rw [show post_message (PostAttempt.queueFull :: rest) =
          (post_message rest).map (fun o => { o with retries := o.retries + 1 }) from rfl, hres]
        rfl
      · intro o ho hp
        cases hrest : post_message rest with
        | none =>
          rw [show post_message (PostAttempt.queueFull :: rest) =
            (post_message rest).map (fun o => { o with retries := o.retries + 1 }) from rfl,
            hrest] at ho
          simp at ho
        | some o2 =>
          rw [show post_message (PostAttempt.queueFull :: rest) =
            (post_message rest).map (fun o => { o with retries := o.retries + 1 }) from rfl,
            hrest] at ho
          simp only [Option.map_some', Option.some.injEq] at ho
          subst ho
          have := ih3 o2 hrest (by simpa using hp)
          simpa using this
    | hardFail =>
      refine ⟨?_, ?_, ?_⟩
      · intro o ho hp
        have ho2 : some (⟨false, 1, 1, true, 0⟩ : PostOutcome) = some o := ho
        have hoeq : o = ⟨false, 1, 1, true, 0⟩ := (Option.some.injEq _ _ ▸ ho2).symm
        subst hoeq
        refine ⟨rfl, rfl, rfl, rfl⟩
      · intro hall
        have := hall PostAttempt.hardFail (List.mem_cons_self ..)
        exact absurd this (by decide)
      · intro o ho hp
        have ho2 : some (⟨false, 1, 1, true, 0⟩ : PostOutcome) = some o := ho
        have hoeq : o = ⟨false, 1, 1, true, 0⟩ := (Option.some.injEq _ _ ▸ ho2).symm
        rw [hoeq] at hp
        simp at hp

theorem C6_witness :
    (⟨false, 1, 1, true, 1⟩ : PostOutcome).envUnpacks = 1 ∧
    ([PostAttempt.queueFull, PostAttempt.hardFail].dropWhile
        (fun a => a == PostAttempt.queueFull)).head? = some PostAttempt.hardFail := by
  have h := (C6_post_message_failure [PostAttempt.queueFull, PostAttempt.hardFail]).1
    ⟨false, 1, 1, true, 1⟩ (by decide) (by decide)
  exact ⟨h.1, h.2.2.2⟩

/-- C1: a concrete interleaving on which the exactly-once-unpack claim
fails on the code: after a successful post, the target object is
destroyed while the context window stays alive; the sender's 100ms
re-poll observes the object dead with the acknowledgment unsent and
tears the envelope down (context.rs 286-289); the queued message is then
still pumped by the live window, and `wnd_proc` unpacks the same
envelope and parameter a second time (context.rs 139, handler.rs 308). -/
theorem C1_envelope_unpacked_twice :
    (dispRun dispInit [DispEv.destroyObj, DispEv.senderTick, DispEv.pump]).envUnpacks = 2 ∧
    (dispRun dispInit [DispEv.destroyObj, DispEv.senderTick, DispEv.pump]).paramUnpacks = 2 ∧
    (dispRun dispInit [DispEv.destroyObj, DispEv.senderTick, DispEv.pump]).senderDone =
      some false := by
  decide

/-- C7: counterexample for the blocking variant: the acknowledgment
arrives between the iteration's non-blocking receive and its aliveness
poll, yet `dispatch_blocking` declares failure and tears the envelope
down — there is no final receive after the poll in that loop
(context.rs 346-361). -/
theorem C7_blocking_no_final_recv :
    (bwaitStep bwaitInit ⟨false, true, true⟩).result = some false ∧
    (bwaitStep bwaitInit ⟨false, true, true⟩).failedWithAckSent = true := by
  decide

/-- C7 (amended): both wait loops re-poll aliveness on the 100ms
interval; the async `dispatch` performs its final non-blocking receive
after observing death — a timer tick that observes death with the
acknowledgment already sent returns success, and no execution of the
async loop declares failure with the acknowledgment already sent; the
blocking variant's non-blocking receive instead precedes its aliveness
poll, so it declares failure exactly in iterations whose opening receive
found no acknowledgment. -/
theorem C7_final_recv_guard (evs : List DispEv) :
    pollIntervalMillis = 100 ∧
    (dispRun dispInit evs).failedWithAckSent = false ∧
    (∀ s : DispSt, s.senderDone = none → s.ackSent = true →
      (dispStep s DispEv.senderTick).senderDone ≠ some false) ∧
    (∀ (s : BWaitSt) (it : BIter), s.result = none →
      (bwaitStep s it).result = some false → s.ackSent = false ∧ it.ackAtTry = false) := by
  refine ⟨rfl, dispRun_failedWithAckSent rfl evs, ?_, ?_⟩
  · intro s h1 h2
    by_cases hdead : (!s.objAlive || !s.winAlive) = true
    · simp [dispStep, h1, hdead, h2]
    · simp [dispStep, h1, hdead, h2]
  · intro s it h1 h2
    by_cases hack : (s.ackSent || it.ackAtTry) = true
    · rw [show bwaitStep s it = { s with ackSent := true, result := some true } from by
        simp [bwaitStep, h1, hack]] at h2
      simp at h2
    · have hs : s.ackSent = false := by
        cases hx : s.ackSent with
        | true => rw [hx] at hack; simp at hack
        | false => rfl
      have hit : it.ackAtTry = false := by
        cases hx : it.ackAtTry with
        | true => rw [hx] at hack; simp at hack
        | false => rfl
      exact ⟨hs, hit⟩

theorem C7_witness :
    (dispRun dispInit [DispEv.pump, DispEv.senderAck]).failedWithAckSent = false ∧
    (bwaitInit.ackSent = false ∧ (⟨false, false, true⟩ : BIter).ackAtTry = false) :=
  ⟨(C7_final_recv_guard [DispEv.pump, DispEv.senderAck]).2.1,
   (C7_final_recv_guard [DispEv.pump, DispEv.senderAck]).2.2.2 bwaitInit
     ⟨false, false, true⟩ rfl (by decide)⟩

/-- C4: counterexample: after `shutdown()` has emptied the global
runtime slot, a call to `spawn` silently re-creates a fresh runtime
(runtime.rs 22-26) and the submission succeeds — it neither panics nor
aborts. -/
theorem C4_spawn_after_shutdown_restarts :
    (rt_spawn (rt_shutdown (some false))).1 = SpawnOutcome.sent ∧
    (rt_spawn (rt_shutdown (some false))).2 = some false := by
  decide

/-- C4 (amended): a call to `runtime::spawn` made after `shutdown()` has
destroyed the global runtime lazily re-creates a fresh background
runtime and succeeds silently; `spawn` panics only when an existing
runtime's submission channel is closed. -/
theorem C4_spawn_lazy_restart :
    rt_spawn (rt_shutdown (some false)) = (SpawnOutcome.sent, some false) ∧
    rt_spawn none = (SpawnOutcome.sent, some false) ∧
    (∀ st : Option Bool, (rt_spawn st).1 = SpawnOutcome.panicked ↔ st = some true) := by
  refine ⟨rfl, rfl, ?_⟩
  intro st
  match st with
  | none => simp [rt_spawn]
  | some true => simp [rt_spawn]
  | some false => simp [rt_spawn]

/-- C10: both `invoke` and `blocking_invoke` assert before anything else
that the calling thread is not the owner thread the invoker was bound
to; called from the owner thread they panic on that assertion before any
envelope is packed and before any message is posted. -/
theorem C10_owner_thread_assert (boundThread curThread : Nat) (preDead : Bool)
    (h : boundThread = curThread) :
    invoke_entry boundThread curThread preDead = ⟨EntryOutcome.assertPanic, 0, 0⟩ ∧
    blocking_invoke_entry boundThread curThread preDead = ⟨EntryOutcome.assertPanic, 0, 0⟩ := by
  subst h
  simp [invoke_entry, blocking_invoke_entry]

theorem C10_witness :
    invoke_entry 3 3 false = ⟨EntryOutcome.assertPanic, 0, 0⟩ :=
  (C10_owner_thread_assert 3 3 false rfl).1

end Pfwx
